import Mathlib

/-!
Shallow embedding of the pagination, tab and sharing logic of the
clowder2 front end (src/frontend/src/components/datasets/Dataset.tsx and
the ChangeDatasetRoleModal component), with theorems about its view-state
invariants and effects.

TypeScript numbers used for page arithmetic are modelled as `Int`
(for `currPageNum`, which the code decrements) and `Nat` (for `limit`
and array lengths, which are never negative).  The `skip` state has
TypeScript type `number | undefined` and is modelled as `Option Int`.
Fetched batches are arrays of records; only their length and identity
matter here, so they are modelled as `List Nat`.
-/

namespace Clowder2

/-- Redux dispatches issued by the skip effect of the Dataset component:
`listFilesInDataset` and `listFoldersInDataset` (Dataset.tsx lines 69-77),
each carrying the datasetId, folderId, skip and limit arguments. -/
inductive Dispatch where
  | fetchFilesInDataset (datasetId : Option String) (folderId : Option String)
      (skip : Int) (limit : Nat)
  | fetchFoldersInDataset (datasetId : Option String) (folderId : Option String)
      (skip : Int) (limit : Nat)
deriving DecidableEq, Repr

/-- View state of the Dataset component relevant to pagination
(Dataset.tsx lines 107-113). -/
structure PageState where
  currPageNum : Int
  limit : Nat
  skip : Option Int
  prevDisabled : Bool
  nextDisabled : Bool
  filesInDataset : List Nat
  foldersInDataset : List Nat
deriving DecidableEq, Repr

/-- Initial state of the Dataset component (Dataset.tsx lines 107-111):
currPageNum = 0, limit = 10, skip = 0, prevDisabled = true,
nextDisabled = false, empty batches before the first fetch resolves. -/
def initPageState : PageState :=
  { currPageNum := 0
    limit := 10
    skip := some 0
    prevDisabled := true
    nextDisabled := false
    filesInDataset := []
    foldersInDataset := [] }

/-- The `previous` click handler (Dataset.tsx lines 172-177):
if currPageNum - 1 >= 0 then set skip to (currPageNum - 1) * limit and
decrement currPageNum, else do nothing. -/
def previousClick (s : PageState) : PageState :=
  if 0 ≤ s.currPageNum - 1 then
    { s with
        skip := some ((s.currPageNum - 1) * (s.limit : Int))
        currPageNum := s.currPageNum - 1 }
  else s

/-- The `next` click handler (Dataset.tsx lines 178-183):
if the files batch or the folders batch has exactly `limit` elements then
set skip to (currPageNum + 1) * limit and increment currPageNum, else do
nothing. -/
def nextClick (s : PageState) : PageState :=
  if s.filesInDataset.length = s.limit ∨ s.foldersInDataset.length = s.limit then
    { s with
        skip := some ((s.currPageNum + 1) * (s.limit : Int))
        currPageNum := s.currPageNum + 1 }
  else s

/-- The effect with dependency array `[skip]` (Dataset.tsx lines 138-145):
when skip is defined, dispatch one files fetch and one folders fetch with
the current datasetId, folderId, skip and limit, and set prevDisabled to
true exactly when skip === 0; when skip is undefined do nothing. -/
def skipEffect (datasetId : Option String) (folderId : Option String)
    (s : PageState) : PageState × List Dispatch :=
  match s.skip with
  | some sk =>
      ({ s with prevDisabled := if sk = 0 then true else false },
       [Dispatch.fetchFilesInDataset datasetId folderId sk s.limit,
        Dispatch.fetchFoldersInDataset datasetId folderId sk s.limit])
  | none => (s, [])

/-- Events that drive the pagination view state: a click on Prev or Next,
the arrival of a fetched files batch or folders batch from the store, and
a run of the skip effect. -/
inductive PageEvent where
  | clickPrev
  | clickNext
  | filesFetched (batch : List Nat)
  | foldersFetched (batch : List Nat)
  | skipEffectRan
deriving DecidableEq, Repr

/-- One step of the view state.  A files-batch arrival also runs the
effect with dependency array `[filesInDataset]` (Dataset.tsx lines
130-136), which recomputes nextDisabled from both current batch lengths;
a folders-batch arrival does not run that effect, because
`foldersInDataset` is not in its dependency array. -/
def applyEvent (s : PageState) (e : PageEvent) : PageState :=
  match e with
  | PageEvent.clickPrev => previousClick s
  | PageEvent.clickNext => nextClick s
  | PageEvent.filesFetched b =>
      let s' := { s with filesInDataset := b }
      { s' with
          nextDisabled :=
            if s'.filesInDataset.length < s'.limit ∧
               s'.foldersInDataset.length < s'.limit
            then true else false }
  | PageEvent.foldersFetched b => { s with foldersInDataset := b }
  | PageEvent.skipEffectRan => (skipEffect none none s).1

/-- The view state reached from the initial state after a sequence of
events. -/
def runEvents (events : List PageEvent) : PageState :=
  events.foldl applyEvent initPageState

/-- The pagination invariant maintained by the component: the page
counter is non-negative and skip is defined and equal to
currPageNum * limit. -/
def pageInv (s : PageState) : Prop :=
  0 ≤ s.currPageNum ∧ s.skip = some (s.currPageNum * (s.limit : Int))

theorem skipEffect_some (ds fid : Option String) (s : PageState) (sk : Int)
    (h : s.skip = some sk) :
    skipEffect ds fid s =
      ({ s with prevDisabled := if sk = 0 then true else false },
       [Dispatch.fetchFilesInDataset ds fid sk s.limit,
        Dispatch.fetchFoldersInDataset ds fid sk s.limit]) := by
  unfold skipEffect
  rw [h]

theorem pageInv_previousClick (s : PageState) (h : pageInv s) :
    pageInv (previousClick s) := by
  unfold previousClick
  by_cases hc : 0 ≤ s.currPageNum - 1
  · rw [if_pos hc]
    exact ⟨hc, rfl⟩
  · rw [if_neg hc]
    exact h

theorem pageInv_nextClick (s : PageState) (h : pageInv s) :
    pageInv (nextClick s) := by
  unfold nextClick
  by_cases hc : s.filesInDataset.length = s.limit ∨ s.foldersInDataset.length = s.limit
  · rw [if_pos hc]
    refine ⟨?_, rfl⟩
    have h0 := h.1
    show 0 ≤ s.currPageNum + 1
    omega
  · rw [if_neg hc]
    exact h

theorem pageInv_applyEvent (s : PageState) (e : PageEvent)
    (h : pageInv s) : pageInv (applyEvent s e) := by
  cases e with
  | clickPrev => exact pageInv_previousClick s h
  | clickNext => exact pageInv_nextClick s h
  | filesFetched b => exact ⟨h.1, h.2⟩
  | foldersFetched b => exact ⟨h.1, h.2⟩
  | skipEffectRan =>
      show pageInv (skipEffect none none s).1
      rw [skipEffect_some none none s _ h.2]
      exact ⟨h.1, h.2⟩

theorem pageInv_foldl (events : List PageEvent) (s : PageState)
    (h : pageInv s) : pageInv (events.foldl applyEvent s) := by
  induction events generalizing s with
  | nil => exact h
  | cons e rest ih => exact ih _ (pageInv_applyEvent s e h)

theorem pageInv_runEvents (events : List PageEvent) :
    pageInv (runEvents events) :=
  pageInv_foldl events initPageState ⟨le_refl 0, rfl⟩

/-- C1: from the initial state (currPageNum = 0, skip = 0) and after every
sequence of events — in particular after every previous or next
operation — the view state satisfies skip = currPageNum * limit. -/
theorem skip_eq_page_mul_limit (events : List PageEvent) :
    (runEvents events).skip =
      some ((runEvents events).currPageNum * ((runEvents events).limit : Int)) :=
  (pageInv_runEvents events).2

/-- C8: previous is a no-op when currPageNum - 1 < 0, so for every
sequence of events starting from the initial state, currPageNum >= 0
holds and skip is defined with a non-negative value. -/
theorem page_and_skip_nonneg (events : List PageEvent) :
    0 ≤ (runEvents events).currPageNum ∧
      ∃ v : Int, (runEvents events).skip = some v ∧ 0 ≤ v := by
  obtain ⟨h0, hsk⟩ := pageInv_runEvents events
  exact ⟨h0, (runEvents events).currPageNum * ((runEvents events).limit : Int),
    hsk, mul_nonneg h0 (Int.ofNat_nonneg _)⟩

theorem previousClick_of_pos (s : PageState) (h : 0 ≤ s.currPageNum - 1) :
    previousClick s =
      { s with
          skip := some ((s.currPageNum - 1) * (s.limit : Int))
          currPageNum := s.currPageNum - 1 } := by
  unfold previousClick
  rw [if_pos h]

theorem nextClick_of_guard (s : PageState)
    (h : s.filesInDataset.length = s.limit ∨ s.foldersInDataset.length = s.limit) :
    nextClick s =
      { s with
          skip := some ((s.currPageNum + 1) * (s.limit : Int))
          currPageNum := s.currPageNum + 1 } := by
  unfold nextClick
  rw [if_pos h]

/-- C2 (amended): arrival of a new files batch recomputes nextDisabled,
setting it exactly when both the new files batch and the current folders
batch have fewer than limit elements; arrival of a new folders batch
alone leaves nextDisabled unchanged, because the dependency
array of the effect is `[filesInDataset]` only. -/
theorem nextDisabled_recomputed_on_files_only (s : PageState) (b : List Nat) :
    ((applyEvent s (PageEvent.filesFetched b)).nextDisabled = true ↔
      (b.length < s.limit ∧ s.foldersInDataset.length < s.limit)) ∧
    (applyEvent s (PageEvent.foldersFetched b)).nextDisabled = s.nextDisabled := by
  constructor
  · show (if b.length < s.limit ∧ s.foldersInDataset.length < s.limit
          then true else false) = true ↔ _
    by_cases h : b.length < s.limit ∧ s.foldersInDataset.length < s.limit
    · rw [if_pos h]
      simp [h]
    · rw [if_neg h]
      simp [h]
  · rfl

/-- A realistic view state: the last files fetch returned 5 items while
the folders batch held 10 items (so nextDisabled was correctly computed
as false at that moment). -/
def staleFoldersState : PageState :=
  { currPageNum := 0
    limit := 10
    skip := some 0
    prevDisabled := true
    nextDisabled := false
    filesInDataset := List.replicate 5 0
    foldersInDataset := List.replicate 10 0 }

/-- C2 counterexample: when only the folders batch is refreshed (to 3
items), both current batches end up smaller than limit, yet nextDisabled
stays false — the recomputation does not happen for changes of the
folders batch, contradicting the claim that it happens for every change
of the fetched batches. -/
theorem nextDisabled_stale_after_folders_refresh :
    (applyEvent staleFoldersState
        (PageEvent.foldersFetched (List.replicate 3 0))).filesInDataset.length <
      (applyEvent staleFoldersState
        (PageEvent.foldersFetched (List.replicate 3 0))).limit ∧
    (applyEvent staleFoldersState
        (PageEvent.foldersFetched (List.replicate 3 0))).foldersInDataset.length <
      (applyEvent staleFoldersState
        (PageEvent.foldersFetched (List.replicate 3 0))).limit ∧
    (applyEvent staleFoldersState
        (PageEvent.foldersFetched (List.replicate 3 0))).nextDisabled = false := by
  decide

/-- C3: whenever skip is defined, the skip effect sets the disabled flag of the Previous
button to true exactly when skip equals 0 (and to false
otherwise). -/
theorem prevDisabled_iff_skip_zero (ds fid : Option String) (s : PageState)
    (sk : Int) (h : s.skip = some sk) :
    ((skipEffect ds fid s).1.prevDisabled = true ↔ sk = 0) := by
  rw [skipEffect_some ds fid s sk h]
  by_cases h0 : sk = 0
  · simp [h0]
  · simp [h0]

/-- C3 witness: at the initial state, skip is 0 and the effect sets
prevDisabled to true. -/
theorem prevDisabled_iff_skip_zero_at_init :
    initPageState.skip = some 0 ∧
      ((skipEffect none none initPageState).1.prevDisabled = true ↔ (0 : Int) = 0) :=
  ⟨rfl, prevDisabled_iff_skip_zero none none initPageState 0 rfl⟩

/-- C7: whenever skip is defined, the skip effect dispatches exactly one
files fetch and one folders fetch, each with the current datasetId,
folderId, skip and limit, and changes no component state other than
prevDisabled. -/
theorem skipEffect_dispatches_and_frame (ds fid : Option String)
    (s : PageState) (sk : Int) (h : s.skip = some sk) :
    (skipEffect ds fid s).2 =
      [Dispatch.fetchFilesInDataset ds fid sk s.limit,
       Dispatch.fetchFoldersInDataset ds fid sk s.limit] ∧
    (skipEffect ds fid s).1.currPageNum = s.currPageNum ∧
    (skipEffect ds fid s).1.limit = s.limit ∧
    (skipEffect ds fid s).1.skip = s.skip ∧
    (skipEffect ds fid s).1.nextDisabled = s.nextDisabled ∧
    (skipEffect ds fid s).1.filesInDataset = s.filesInDataset ∧
    (skipEffect ds fid s).1.foldersInDataset = s.foldersInDataset := by
  rw [skipEffect_some ds fid s sk h]
  exact ⟨rfl, rfl, rfl, rfl, rfl, rfl, rfl⟩

/-- C7 witness: at the initial state the effect dispatches exactly the
files fetch and the folders fetch with skip 0 and limit 10, and leaves
every field but prevDisabled unchanged. -/
theorem skipEffect_dispatches_and_frame_at_init :
    (skipEffect none none initPageState).2 =
      [Dispatch.fetchFilesInDataset none none 0 10,
       Dispatch.fetchFoldersInDataset none none 0 10] ∧
    (skipEffect none none initPageState).1.currPageNum =
      initPageState.currPageNum ∧
    (skipEffect none none initPageState).1.limit = initPageState.limit ∧
    (skipEffect none none initPageState).1.skip = initPageState.skip ∧
    (skipEffect none none initPageState).1.nextDisabled =
      initPageState.nextDisabled ∧
    (skipEffect none none initPageState).1.filesInDataset =
      initPageState.filesInDataset ∧
    (skipEffect none none initPageState).1.foldersInDataset =
      initPageState.foldersInDataset :=
  skipEffect_dispatches_and_frame none none initPageState 0 rfl

/-- A pagination state with currPageNum = 0 and a full files batch, but
whose skip (5) does not satisfy skip = currPageNum * limit. -/
def detachedSkipState : PageState :=
  { currPageNum := 0
    limit := 10
    skip := some 5
    prevDisabled := false
    nextDisabled := false
    filesInDataset := List.replicate 10 0
    foldersInDataset := [] }

/-- C4 counterexample: at a state with currPageNum = 0 >= 0 whose files
batch has exactly limit elements (so the guard of next holds) but whose skip
is 5, applying next and then previous restores currPageNum but sets skip
to 0, not back to 5 — the round trip does not restore skip for every
such state. -/
theorem next_previous_not_roundtrip_on_detached_skip :
    0 ≤ detachedSkipState.currPageNum ∧
    (detachedSkipState.filesInDataset.length = detachedSkipState.limit ∨
      detachedSkipState.foldersInDataset.length = detachedSkipState.limit) ∧
    (previousClick (nextClick detachedSkipState)).currPageNum =
      detachedSkipState.currPageNum ∧
    ¬ (previousClick (nextClick detachedSkipState)).skip =
        detachedSkipState.skip := by
  decide

/-- C4 (amended): for every pagination state with currPageNum >= 0 that
satisfies the maintained invariant skip = currPageNum * limit, if the guard
of next holds then applying next and then previous restores both
currPageNum and skip. -/
theorem next_previous_roundtrip (s : PageState)
    (h0 : 0 ≤ s.currPageNum)
    (hinv : s.skip = some (s.currPageNum * (s.limit : Int)))
    (hg : s.filesInDataset.length = s.limit ∨
      s.foldersInDataset.length = s.limit) :
    (previousClick (nextClick s)).currPageNum = s.currPageNum ∧
    (previousClick (nextClick s)).skip = s.skip := by
  rw [nextClick_of_guard s hg]
  rw [previousClick_of_pos _ (show (0 : Int) ≤ s.currPageNum + 1 - 1 by omega)]
  have hp : s.currPageNum + 1 - 1 = s.currPageNum := by omega
  constructor
  · show s.currPageNum + 1 - 1 = s.currPageNum
    exact hp
  · show some ((s.currPageNum + 1 - 1) * (s.limit : Int)) = s.skip
    rw [hp, hinv]

/-- A reachable state one fetch after the initial one: the first files
fetch returned a full batch of 10 items. -/
def fullFirstPageState : PageState :=
  { initPageState with filesInDataset := List.replicate 10 0 }

/-- C4 witness: at a state with currPageNum = 0, skip = 0 and a full
files batch, next followed by previous restores currPageNum and skip. -/
theorem next_previous_roundtrip_at_full_first_page :
    0 ≤ fullFirstPageState.currPageNum ∧
    fullFirstPageState.skip =
      some (fullFirstPageState.currPageNum * (fullFirstPageState.limit : Int)) ∧
    (fullFirstPageState.filesInDataset.length = fullFirstPageState.limit ∨
      fullFirstPageState.foldersInDataset.length = fullFirstPageState.limit) ∧
    ((previousClick (nextClick fullFirstPageState)).currPageNum =
        fullFirstPageState.currPageNum ∧
      (previousClick (nextClick fullFirstPageState)).skip =
        fullFirstPageState.skip) :=
  ⟨by decide, by decide, by decide,
    next_previous_roundtrip fullFirstPageState (by decide) (by decide) (by decide)⟩

/-! Embedding of ChangeDatasetRoleModal, the share and change-role dialog. -/

/-- State of the ChangeDatasetRoleModal component: the email field, the
role selection and the success-alert visibility. -/
structure ShareModalState where
  email : String
  role : String
  showSuccessAlert : Bool
deriving DecidableEq, Repr

/-- Redux dispatch issued by the dialog: `setDatasetUserRole` with the
datasetId, the username (email field) and the selected role. -/
inductive ShareDispatch where
  | setDatasetUserRole (datasetId : Option String) (username : String)
      (role : String)
deriving DecidableEq, Repr

/-- Disabled prop of the Share button:
`(email.length > 0) ? false : true`. -/
def shareDisabled (email : String) : Bool :=
  if email.length > 0 then false else true

/-- The `onShare` click handler: dispatch setUserRole with the current
email and role, then set email to "", role to "viewer" and show the
success alert.  The eventual outcome of the dispatch is discarded; nothing in
the handler depends on it. -/
def onShare (datasetId : Option String) (s : ShareModalState) :
    ShareModalState × List ShareDispatch :=
  ({ email := "", role := "viewer", showSuccessAlert := true },
   [ShareDispatch.setDatasetUserRole datasetId s.email s.role])

theorem string_length_zero_iff (s : String) : s.length = 0 ↔ s = "" := by
  cases s with
  | mk data =>
    cases data with
    | nil => simp [String.length]
    | cons c cs =>
      simp only [String.length]
      constructor
      · intro h
        simp at h
      · intro h
        have hd := congrArg String.data h
        simp at hd

/-- C5: the Share button is disabled exactly when the email field is the
empty string. -/
theorem shareDisabled_iff_empty (email : String) :
    (shareDisabled email = true ↔ email = "") := by
  unfold shareDisabled
  by_cases h : email.length > 0
  · rw [if_pos h]
    constructor
    · intro hf
      exact absurd hf (by simp)
    · intro he
      rw [he] at h
      simp [String.length] at h
  · rw [if_neg h]
    have hl : email.length = 0 := by omega
    simp [(string_length_zero_iff email).mp hl]

/-- C9: for any state with a non-empty email, clicking Share dispatches
exactly one setUserRole call with the previous email and role, then
clears the email field, resets the role to viewer and shows the success
alert, leaving the Share button disabled; no part of this depends on the
outcome of the dispatched request. -/
theorem onShare_resets_state (ds : Option String) (s : ShareModalState)
    (_h : s.email ≠ "") :
    (onShare ds s).2 = [ShareDispatch.setDatasetUserRole ds s.email s.role] ∧
    (onShare ds s).1.email = "" ∧
    (onShare ds s).1.role = "viewer" ∧
    (onShare ds s).1.showSuccessAlert = true ∧
    shareDisabled (onShare ds s).1.email = true :=
  ⟨rfl, rfl, rfl, rfl, rfl⟩

/-- A filled-in dialog state: a non-empty email and a selected role. -/
def filledShareState : ShareModalState :=
  { email := "someone", role := "editor", showSuccessAlert := false }

/-- C9 witness application: sharing from the filled-in dialog state. -/
theorem onShare_resets_state_on_example :
    (onShare (some "ds1") filledShareState).2 =
      [ShareDispatch.setDatasetUserRole (some "ds1") "someone" "editor"] ∧
    (onShare (some "ds1") filledShareState).1.email = "" ∧
    (onShare (some "ds1") filledShareState).1.role = "viewer" ∧
    (onShare (some "ds1") filledShareState).1.showSuccessAlert = true ∧
    shareDisabled (onShare (some "ds1") filledShareState).1.email = true :=
  onShare_resets_state (some "ds1") filledShareState (by decide)

/-! Role-gated tabs in the dataset detail view. -/

/-- Labels of the tabs that the Dataset component can render. -/
inductive TabKind where
  | files
  | visualizations
  | userMetadata
  | extractedMetadata
  | extract
  | extractionHistory
  | sharing
deriving DecidableEq, Repr

/-- The gate used for the Extract and Sharing tabs and their panels:
`datasetRole.role !== undefined && datasetRole.role !== "viewer"`. -/
def roleGate (role : Option String) : Bool :=
  role.isSome && !(role == some "viewer")

/-- The list of tabs rendered by the Dataset component for a given
datasetRole.role (Dataset.tsx lines 275-341): Files, Visualizations,
User Metadata, Extracted Metadata always; Extract only behind the role
gate; Extraction History always; Sharing only behind the role gate. -/
def renderedTabs (role : Option String) : List TabKind :=
  [TabKind.files, TabKind.visualizations, TabKind.userMetadata,
   TabKind.extractedMetadata]
  ++ (if roleGate role then [TabKind.extract] else [])
  ++ [TabKind.extractionHistory]
  ++ (if roleGate role then [TabKind.sharing] else [])

/-- The list of TabPanel indices rendered by the Dataset component
(Dataset.tsx lines 342-426): panels 0-3 and 5 always, panels 4
(Listeners / Extract) and 6 (Sharing) only behind the role gate. -/
def renderedTabPanels (role : Option String) : List Nat :=
  [0, 1, 2, 3]
  ++ (if roleGate role then [4] else [])
  ++ [5]
  ++ (if roleGate role then [6] else [])

theorem roleGate_iff (role : Option String) :
    roleGate role = true ↔ role ≠ none ∧ role ≠ some "viewer" := by
  cases role with
  | none => simp [roleGate]
  | some r => simp [roleGate]

/-- C6: the Extract tab, the Sharing tab and their panels (indices 4 and
6) are rendered exactly when datasetRole.role is defined and not equal
to viewer, while the Files, Visualizations, User Metadata, Extracted
Metadata and Extraction History tabs (and panels 0-3 and 5) are rendered
for every role. -/
theorem tabs_gated_by_role (role : Option String) :
    ((TabKind.extract ∈ renderedTabs role) ↔
        (role ≠ none ∧ role ≠ some "viewer")) ∧
    ((TabKind.sharing ∈ renderedTabs role) ↔
        (role ≠ none ∧ role ≠ some "viewer")) ∧
    ((4 ∈ renderedTabPanels role) ↔ (role ≠ none ∧ role ≠ some "viewer")) ∧
    ((6 ∈ renderedTabPanels role) ↔ (role ≠ none ∧ role ≠ some "viewer")) ∧
    TabKind.files ∈ renderedTabs role ∧
    TabKind.visualizations ∈ renderedTabs role ∧
    TabKind.userMetadata ∈ renderedTabs role ∧
    TabKind.extractedMetadata ∈ renderedTabs role ∧
    TabKind.extractionHistory ∈ renderedTabs role ∧
    0 ∈ renderedTabPanels role ∧
    1 ∈ renderedTabPanels role ∧
    2 ∈ renderedTabPanels role ∧
    3 ∈ renderedTabPanels role ∧
    5 ∈ renderedTabPanels role := by
  rw [← roleGate_iff]
  by_cases h : roleGate role = true
  · simp [renderedTabs, renderedTabPanels, h]
  · simp only [Bool.not_eq_true] at h
    simp [renderedTabs, renderedTabPanels, h]

/-! Embedding of setMetadata, which merges pending metadata request forms.

JavaScript objects used as string-keyed maps are modelled as association
lists in which the first occurrence of a key is the binding consulted by
lookup.  The object spread `\x7b ...a, ...b \x7d`, whose result maps every
key of `a` or `b` with the values of `b` taking precedence, is modelled
by `objSpread`; the computed-key update `\x7b ...m, [k]: v \x7d` is
modelled by `objUpdate`.
-/

/-- Lookup of a key in an association list (JS property access). -/
def lookupKey {α : Type} : List (String × α) → String → Option α
  | [], _ => none
  | (k', v) :: rest, k => if k' = k then some v else lookupKey rest k

/-- JS object spread of two string-keyed maps, the second taking
precedence on shared keys. -/
def objSpread (a b : List (String × Nat)) : List (String × Nat) :=
  a.filter (fun p => (lookupKey b p.1).isNone) ++ b

/-- JS computed-key update: replace the binding of k when present (keys
of a JS object are unique, so at most one binding is replaced),
otherwise add the new binding at the end. -/
def objUpdate {α : Type} : List (String × α) → String → α → List (String × α)
  | [], k, v => [(k, v)]
  | (k', w) :: rest, k, v =>
      if k' = k then (k, v) :: rest else (k', w) :: objUpdate rest k v

/-- A metadata object passed to setMetadata: its definition key, its
content object (a string-keyed map, e.g. lat/lon fields) and its
remaining pass-through fields, represented by the optional id. -/
structure MetadataObject where
  definition : String
  content : List (String × Nat)
  id : Option String
deriving DecidableEq, Repr

/-- The `setMetadata` updater (Dataset.tsx lines 192-202): when the definition key of the
submitted metadata already has an entry in the pending
forms, overwrite the content of the metadata with the spread of the content
of the previous entry and the new content, then store the metadata under its
definition key. -/
def setMetadata (prevState : List (String × MetadataObject))
    (metadata : MetadataObject) : List (String × MetadataObject) :=
  match lookupKey prevState metadata.definition with
  | some prevEntry =>
      objUpdate prevState metadata.definition
        { metadata with content := objSpread prevEntry.content metadata.content }
  | none => objUpdate prevState metadata.definition metadata

theorem lookupKey_append {α : Type} (m₁ m₂ : List (String × α)) (k : String) :
    lookupKey (m₁ ++ m₂) k =
      match lookupKey m₁ k with
      | some v => some v
      | none => lookupKey m₂ k := by
  induction m₁ with
  | nil => rfl
  | cons q rest ih =>
      obtain ⟨kq, w⟩ := q
      by_cases hk : kq = k
      · simp [lookupKey, hk]
      · simp [lookupKey, hk, ih]

theorem lookupKey_filter_not_in (a b : List (String × Nat)) (k : String) :
    lookupKey (a.filter (fun p => (lookupKey b p.1).isNone)) k =
      if (lookupKey b k).isNone then lookupKey a k else none := by
  induction a with
  | nil => simp [lookupKey]
  | cons q rest ih =>
      obtain ⟨kq, w⟩ := q
      by_cases hk : kq = k
      · subst hk
        by_cases hb : (lookupKey b kq).isNone
        · simp [List.filter, lookupKey, hb, ih]
        · simp [List.filter, lookupKey, hb, ih]
      · by_cases hb : (lookupKey b kq).isNone
        · simp [List.filter, lookupKey, hb, hk, ih]
        · simp [List.filter, lookupKey, hb, hk, ih]

theorem lookupKey_objSpread (a b : List (String × Nat)) (k : String) :
    lookupKey (objSpread a b) k =
      match lookupKey b k with
      | some v => some v
      | none => lookupKey a k := by
  unfold objSpread
  rw [lookupKey_append, lookupKey_filter_not_in]
  cases hb : lookupKey b k with
  | none =>
      simp only [hb, Option.isNone_none, if_pos]
      cases ha : lookupKey a k <;> simp [ha]
  | some v => simp [hb]

theorem lookupKey_objUpdate_same {α : Type} (m : List (String × α))
    (k : String) (v : α) : lookupKey (objUpdate m k v) k = some v := by
  induction m with
  | nil =>
      unfold objUpdate lookupKey
      rw [if_pos rfl]
  | cons q rest ih =>
      obtain ⟨kq, w⟩ := q
      unfold objUpdate
      by_cases hk : kq = k
      · rw [if_pos hk]
        unfold lookupKey
        rw [if_pos rfl]
      · rw [if_neg hk]
        unfold lookupKey
        rw [if_neg hk]
        exact ih

theorem lookupKey_objUpdate_other {α : Type} (m : List (String × α))
    (k k' : String) (v : α) (hne : k' ≠ k) :
    lookupKey (objUpdate m k v) k' = lookupKey m k' := by
  induction m with
  | nil =>
      unfold objUpdate lookupKey
      rw [if_neg (fun h : k = k' => hne h.symm)]
      rfl
  | cons q rest ih =>
      obtain ⟨kq, w⟩ := q
      unfold objUpdate
      by_cases hk : kq = k
      · rw [if_pos hk]
        unfold lookupKey
        rw [if_neg (fun h : k = k' => hne h.symm),
          if_neg (fun h : kq = k' => hne (h.symm.trans hk))]
      · rw [if_neg hk]
        unfold lookupKey
        by_cases hq : kq = k'
        · rw [if_pos hq, if_pos hq]
        · rw [if_neg hq, if_neg hq]
          exact ih

/-- C10: when the definition key of the submitted metadata already has a
pending form entry, the stored entry is the metadata with its content
replaced by the union of the content of the previous entry and the new
content, the new fields taking precedence; a metadata object with a
fresh definition key is inserted as-is; and entries under every other
definition key are left unchanged. -/
theorem setMetadata_merges_content (prev : List (String × MetadataObject))
    (md : MetadataObject) :
    (∀ prevEntry, lookupKey prev md.definition = some prevEntry →
      lookupKey (setMetadata prev md) md.definition =
        some { md with content := objSpread prevEntry.content md.content } ∧
      ∀ fk, lookupKey (objSpread prevEntry.content md.content) fk =
        match lookupKey md.content fk with
        | some v => some v
        | none => lookupKey prevEntry.content fk) ∧
    (lookupKey prev md.definition = none →
      lookupKey (setMetadata prev md) md.definition = some md) ∧
    (∀ k, k ≠ md.definition →
      lookupKey (setMetadata prev md) k = lookupKey prev k) := by
  refine ⟨?_, ?_, ?_⟩
  · intro prevEntry hpe
    constructor
    · unfold setMetadata
      rw [hpe]
      exact lookupKey_objUpdate_same prev md.definition _
    · intro fk
      exact lookupKey_objSpread prevEntry.content md.content fk
  · intro hn
    unfold setMetadata
    rw [hn]
    exact lookupKey_objUpdate_same prev md.definition md
  · intro k hk
    unfold setMetadata
    cases hpe : lookupKey prev md.definition with
    | none => exact lookupKey_objUpdate_other prev md.definition k md hk
    | some prevEntry =>
        exact lookupKey_objUpdate_other prev md.definition k _ hk

/-- A pending form entry under the definition key geo holding lat and
lon fields. -/
def geoPrevEntry : MetadataObject :=
  { definition := "geo", content := [("lat", 1), ("lon", 2)], id := some "m1" }

/-- A submitted metadata object for the same definition key with a new
lon value. -/
def geoSubmitted : MetadataObject :=
  { definition := "geo", content := [("lon", 9)], id := none }

/-- C10 witness: submitting the new geo metadata against a pending geo
entry stores the metadata with the merged content, and an entry under a
different key is looked up unchanged. -/
theorem setMetadata_merges_content_on_geo :
    lookupKey (setMetadata [("geo", geoPrevEntry)] geoSubmitted) "geo" =
      some { geoSubmitted with
              content := objSpread geoPrevEntry.content geoSubmitted.content } ∧
    lookupKey (setMetadata [("geo", geoPrevEntry)] geoSubmitted) "color" =
      lookupKey [("geo", geoPrevEntry)] "color" :=
  ⟨((setMetadata_merges_content [("geo", geoPrevEntry)] geoSubmitted).1
      geoPrevEntry (by decide)).1,
   (setMetadata_merges_content [("geo", geoPrevEntry)] geoSubmitted).2.2
      "color" (by decide)⟩

end Clowder2
